import Mathlib

/-!
Verification of go-url-shortener, `cmd/main.go`.

A shallow embedding of the two HTTP handlers of `cmd/main.go` and of the
package-level map they share.

* The global `pathsToUrls` and the effects a handler has besides its response
  (calls of `decoder.Decode`, map assignments, `log.Print`) are threaded through
  the handlers as an explicit `State`.
* A handler is a function from the `ResponseWriter` it is given, the request and
  the state to the writer and state it leaves behind.
* What the handlers call in the Go standard library and what cannot be read off
  `main.go` (the JSON decoder, the `%q` verb, URL rewriting inside
  `http.Redirect`) is a parameter, `Platform`; every theorem holds for every
  platform.  The small library functions (`http.Error`, `WriteHeader`, `Write`,
  `Header.Get/Set/Del`) are written out after their documented behaviour.
* The default mux is modelled as far as it decides which handler runs: a request
  whose path is not in canonical form is answered by the mux itself (`route`,
  `cleanPath`), every other request goes to the handler of its pattern.
* Go strings are Lean strings.
-/

namespace UrlShortener

/-! ## Library side: headers, response writer, errors -/

/-- Go `http.Header`, a `map[string][]string`: `none` is an absent key. -/
abbrev HttpHeader := String → Option (List String)

/-- Go `Header.Get`: the first value of the key, or the empty string. -/
def HttpHeader.Get (h : HttpHeader) (key : String) : String :=
  match h key with
  | some (v :: _) => v
  | _ => ""

/-- Go `Header.Set`: the key now holds exactly one value. -/
def HttpHeader.Set (h : HttpHeader) (key value : String) : HttpHeader :=
  fun k => if k = key then some [value] else h k

/-- Go `Header.Del`. -/
def HttpHeader.Del (h : HttpHeader) (key : String) : HttpHeader :=
  fun k => if k = key then none else h k

/-- The part of `*http.Request` the handlers read. `Path` is `request.URL.Path`. -/
structure Request where
  Method : String
  Path : String
  Header : HttpHeader
  Body : String

/-- An `http.ResponseWriter` as a handler sees it: the header map, the status code
given to the first `WriteHeader` (`none` while no header was written) and the bytes
written so far. -/
structure ResponseWriter where
  header : HttpHeader
  status : Option Nat
  body : String

/-- The writer the server hands to a handler at the start of a request. -/
def ResponseWriter.fresh : ResponseWriter :=
  { header := fun _ => none, status := none, body := "" }

/-- Go `WriteHeader`: only the first call sets the status. -/
def ResponseWriter.WriteHeader (w : ResponseWriter) (code : Nat) : ResponseWriter :=
  match w.status with
  | some _ => w
  | none => { w with status := some code }

/-- Go `Write`: an implicit `WriteHeader(200)` when no header was written, then the
bytes are appended. -/
def ResponseWriter.Write (w : ResponseWriter) (bytes : String) : ResponseWriter :=
  let w1 := w.WriteHeader 200
  { w1 with body := w1.body ++ bytes }

/-- Status code the client receives: the written one, or 200 when the handler
returned without writing a header. -/
def ResponseWriter.code (w : ResponseWriter) : Nat :=
  w.status.getD 200

def StatusOK : Nat := 200
def StatusMovedPermanently : Nat := 301
def StatusSeeOther : Nat := 303
def StatusBadRequest : Nat := 400
def StatusInternalServerError : Nat := 500

/-- Go `http.StatusText`, on the codes this program uses; the empty string
elsewhere, as for an unknown code. -/
def StatusText (code : Nat) : String :=
  if code = 200 then "OK"
  else if code = 301 then "Moved Permanently"
  else if code = 303 then "See Other"
  else if code = 400 then "Bad Request"
  else if code = 500 then "Internal Server Error"
  else ""

/-- Go `http.Error(w, error, code)`: plain-text headers, the status, then the
message and a newline (`fmt.Fprintln`). -/
def httpError (w : ResponseWriter) (error : String) (code : Nat) : ResponseWriter :=
  let h := ((w.header.Del "Content-Length").Set "Content-Type"
    "text/plain; charset=utf-8").Set "X-Content-Type-Options" "nosniff"
  ({ w with header := h }.WriteHeader code).Write (error ++ "\n")

/-- What the handler can observe of a Go `error` value returned by
`decoder.Decode`: each field is the outcome of one expression of `main.go`. -/
structure GoError where
  /-- Outcome of `errors.As(err, &syntaxError)`: the `Offset` of the syntax error found. -/
  asSyntaxError : Option Int
  /-- Outcome of `errors.Is(err, io.ErrUnexpectedEOF)`. -/
  isUnexpectedEOF : Bool
  /-- Outcome of `errors.As(err, &unmarshalTypeError)`: its `Field` and `Offset`. -/
  asUnmarshalTypeError : Option (String × Int)
  /-- Text of `err.Error()`. -/
  text : String
  /-- Outcome of `errors.Is(err, io.EOF)`. -/
  isEOF : Bool
  /-- Outcome of `err == io.EOF`. -/
  eqEOF : Bool

/-- The entity of the program (`type Redirection struct`). -/
structure Redirection where
  ShortKey : String
  Resource : String

/-- Standard-library behaviour the handlers depend on and `main.go` does not fix. -/
structure Platform where
  /-- Result of `decoder.Decode(&redirection)` on a new decoder over the body, with
  `DisallowUnknownFields` set. -/
  decodeRedirection : String → Except GoError Redirection
  /-- Result of the following `decoder.Decode(&struct{}{})` on the same decoder, after the
  first call succeeded; `none` is a nil error. -/
  decodeAgain : String → Option GoError
  /-- The `%q` verb of `fmt.Sprintf` on a string. -/
  fmtQ : String → String
  /-- The url `http.Redirect` arrives at from the request path and the url it is given
  (a url without scheme and host is resolved against the request path and cleaned). -/
  redirectURL : String → String → String
  /-- The `hexEscapeNonASCII` of `net/http`, applied to the `Location` value. -/
  hexEscapeNonASCII : String → String
  /-- The `htmlEscape` of `net/http`, applied to the url in the redirect body. -/
  htmlEscape : String → String
  /-- The answer the default mux gives by itself, without calling a registered handler, to
  a request whose path is not in canonical form: a redirect to the cleaned path (status
  301 in `ServeMux.Handler`), or 400 for the request target `*`. No result depends on
  what the answer is, only on no handler being run. -/
  muxAnswer : Request → ResponseWriter

/-- Go `http.Redirect(w, r, url, code)`. -/
def httpRedirect (P : Platform) (w : ResponseWriter) (r : Request) (url : String)
    (code : Nat) : ResponseWriter :=
  let url1 := P.redirectURL r.Path url
  let hadCT := (w.header "Content-Type").isSome
  let h1 := w.header.Set "Location" (P.hexEscapeNonASCII url1)
  let h2 := if !hadCT && (r.Method = "GET" || r.Method = "HEAD") then
      h1.Set "Content-Type" "text/html; charset=utf-8" else h1
  let w1 := { w with header := h2 }.WriteHeader code
  if !hadCT && r.Method = "GET" then
    w1.Write ("<a href=\"" ++ P.htmlEscape url1 ++ "\">" ++ StatusText code ++ "</a>.\n" ++ "\n")
  else w1

/-! ## The program -/

/-- Constant `servAddress`. -/
def servAddress : String := ":8080"

/-- Go `map[string]string`, the type of the global `pathsToUrls`: `m k = none` is
an absent key. -/
abbrev UrlMap := String → Option String

/-- Go `make(map[string]string)`, the initial value of `pathsToUrls`. -/
def UrlMap.make : UrlMap := fun _ => none

/-- Go `m[key] = value`. -/
def UrlMap.assign (m : UrlMap) (key value : String) : UrlMap :=
  fun k => if k = key then some value else m k

/-- Effects of a handler other than its response, in the order they happen. -/
inductive Event where
  /-- A call of `decoder.Decode`, the only place that reads `r.Body`. -/
  | decode
  /-- The assignment `pathsToUrls[key] = value`. -/
  | assign (key value : String)
  /-- A call of `log.Print`. -/
  | logPrint (msg : String)
  deriving DecidableEq, Repr

/-- Process state: the global map and the history of effects. -/
structure State where
  pathsToUrls : UrlMap
  trace : List Event

/-- State at process start. -/
def State.init : State := { pathsToUrls := UrlMap.make, trace := [] }

/-- Append one effect to the history. -/
def State.record (g : State) (e : Event) : State :=
  { g with trace := g.trace ++ [e] }

/-- Go `strings.TrimPrefix`. -/
def TrimPrefix (s pre : String) : String :=
  if pre.isPrefixOf s then s.drop pre.length else s

/-- Lines 33-69 of `createRedirection`: decode the body, answer a decode error, reject
trailing content, store the pair. -/
def decodeAndStore (P : Platform) (w : ResponseWriter) (r : Request) (g : State) :
    ResponseWriter × State :=
  let g1 := g.record Event.decode
  match P.decodeRedirection r.Body with
  | Except.error err =>
    match err.asSyntaxError with
    | some offset =>
      (httpError w ("Request body contains badly-formed JSON (at position "
        ++ toString offset ++ ")") StatusBadRequest, g1)
    | none =>
      if err.isUnexpectedEOF then
        (httpError w "Request body contains badly-formed JSON" StatusBadRequest, g1)
      else
        match err.asUnmarshalTypeError with
        | some (field, offset) =>
          (httpError w ("Request body contains an invalid value for the " ++ P.fmtQ field
            ++ " field (at position " ++ toString offset ++ ")") StatusBadRequest, g1)
        | none =>
          if "json: unknown field ".isPrefixOf err.text then
            (httpError w ("Request body contains unknown field "
              ++ TrimPrefix err.text "json: unknown field ") StatusBadRequest, g1)
          else if err.isEOF then
            (httpError w "Request body must not be empty" StatusBadRequest, g1)
          else
            (httpError w (StatusText StatusInternalServerError) StatusInternalServerError,
              g1.record (Event.logPrint err.text))
  | Except.ok redirection =>
    let g2 := g1.record Event.decode
    let isEOF := match P.decodeAgain r.Body with
      | some err => err.eqEOF
      | none => false
    if !isEOF then
      (httpError w "Request body must only contain a single JSON object" StatusBadRequest, g2)
    else
      (w, { pathsToUrls := g2.pathsToUrls.assign redirection.ShortKey redirection.Resource,
            trace := g2.trace ++ [Event.assign redirection.ShortKey redirection.Resource] })

/-- Function `createRedirection`. -/
def createRedirection (P : Platform) (w : ResponseWriter) (r : Request) (g : State) :
    ResponseWriter × State :=
  let contentType := r.Header.Get "Content-Type"
  if contentType ≠ "" then
    if contentType ≠ "application/json" then
      (httpError w "Content-Type must be set to application/json" StatusBadRequest, g)
    else
      decodeAndStore P w r g
  else
    (httpError w "Content-Type must be set to application/json" StatusBadRequest, g)

/-- The handler `main` registers for the pattern `/api/new`. -/
def apiNewHandler (P : Platform) (writer : ResponseWriter) (request : Request) (g : State) :
    ResponseWriter × State :=
  if request.Method = "POST" then
    createRedirection P writer request g
  else
    (httpError writer "Not allowed" StatusBadRequest, g)

/-- The handler `main` registers for the pattern `/`. -/
def rootHandler (P : Platform) (writer : ResponseWriter) (request : Request) (g : State) :
    ResponseWriter × State :=
  let path := request.Path
  match g.pathsToUrls path with
  | some resource => (httpRedirect P writer request resource StatusSeeOther, g)
  | none => (writer.Write "Not found", g)

/-- The elements of a path between its slashes: `/a//b` has the elements ``, `a`, ``, `b`. -/
def pathElements : List Char → List (List Char)
  | [] => [[]]
  | c :: cs =>
    if c = '/' then [] :: pathElements cs
    else
      match pathElements cs with
      | [] => [[c]]
      | e :: es => (c :: e) :: es

/-- The rules of Go `path.Clean` on the elements of a rooted path: empty elements and `.`
are dropped, `..` removes the element kept last, and is dropped at the root. `kept` holds
the elements kept so far, last one first. -/
def cleanElements : List (List Char) → List (List Char) → List (List Char)
  | kept, [] => kept.reverse
  | kept, e :: es =>
    if e = [] ∨ e = ['.'] then cleanElements kept es
    else if e = ['.', '.'] then cleanElements kept.tail es
    else cleanElements (e :: kept) es

/-- Go `path.Clean` on a rooted path: the kept elements, each after a slash, and `/`
when none is kept. -/
def pathCleanRooted (p : List Char) : List Char :=
  match cleanElements [] (pathElements p) with
  | [] => ['/']
  | es => (es.map (fun e => '/' :: e)).flatten

/-- The `cleanPath` of `net/http`: the empty path is `/`, a path without a leading slash
gets one, the path is cleaned by `path.Clean`, and a trailing slash is put back. -/
def cleanPath (p : String) : String :=
  match p.data with
  | [] => "/"
  | c :: cs =>
    let p1 := if c = '/' then c :: cs else '/' :: c :: cs
    let np := pathCleanRooted p1
    if p1.getLast? = some '/' ∧ np ≠ ['/'] then String.mk (np ++ ['/']) else String.mk np

/-- Who answers a request. -/
inductive Route where
  /-- The mux itself, with `Platform.muxAnswer`. -/
  | mux
  /-- The handler registered for `/api/new`. -/
  | apiNew
  /-- The handler registered for `/`. -/
  | root
  deriving DecidableEq, Repr

/-- The default mux on the two patterns `main` registers. A request other than `CONNECT`
whose path differs from its cleaned form is answered by the mux itself. Otherwise the
exact pattern `/api/new` takes that path alone and the pattern `/` every other path.
(The path is `URL.Path`, as the mux of Go up to 1.21 matches it; later releases match
the escaped path, which is the same string when nothing in it needs escaping.) -/
def route (request : Request) : Route :=
  if request.Method ≠ "CONNECT" ∧ cleanPath request.Path ≠ request.Path then Route.mux
  else if request.Path = "/api/new" then Route.apiNew
  else Route.root

/-- One request through the server: the mux answers it or hands it, with a fresh writer,
to the handler it routes to. -/
def serve (P : Platform) (request : Request) (g : State) : ResponseWriter × State :=
  match route request with
  | Route.mux => (P.muxAnswer request, g)
  | Route.apiNew => apiNewHandler P ResponseWriter.fresh request g
  | Route.root => rootHandler P ResponseWriter.fresh request g

/-- The same request served `n` times in a row: the responses in order and the
final state. -/
def serveRepeated (P : Platform) (request : Request) : Nat → State → List ResponseWriter × State
  | 0, g => ([], g)
  | n + 1, g =>
    let out := serve P request g
    let rest := serveRepeated P request n out.2
    (out.1 :: rest.1, rest.2)

/-- The key/value pairs assigned to `pathsToUrls` along a history. -/
def assignments : List Event → List (String × String)
  | [] => []
  | Event.assign key value :: t => (key, value) :: assignments t
  | _ :: t => assignments t

/-- Number of `decoder.Decode` calls along a history. -/
def decodeCalls : List Event → Nat
  | [] => 0
  | Event.decode :: t => decodeCalls t + 1
  | _ :: t => decodeCalls t

/-- A successful creation request, as the interface table has it: `POST /api/new` whose
body carries `ShortKey = k` and `Resource = res` and whose answer has status 200. -/
def SuccessfulCreation (P : Platform) (request : Request) (g : State) (k res : String) : Prop :=
  request.Path = "/api/new" ∧ request.Method = "POST"
    ∧ P.decodeRedirection request.Body = Except.ok { ShortKey := k, Resource := res }
    ∧ (serve P request g).1.code = StatusOK

/-! ## Concrete inputs -/

/-- The error `io.EOF` as the handler observes it. -/
def errEOF : GoError :=
  { asSyntaxError := none, isUnexpectedEOF := false, asUnmarshalTypeError := none,
    text := "EOF", isEOF := true, eqEOF := true }

/-- The error `encoding/json` reports for a field the target struct does not have. -/
def errUnknownField (name : String) : GoError :=
  { asSyntaxError := none, isUnexpectedEOF := false, asUnmarshalTypeError := none,
    text := "json: unknown field \"" ++ name ++ "\"", isEOF := false, eqEOF := false }

def bodyA1 : String := "\x7b\"ShortKey\":\"/a\",\"Resource\":\"http://x\"\x7d"
def bodyA2 : String := "\x7b\"ShortKey\":\"/a\",\"Resource\":\"http://y\"\x7d"
def bodyApiNew : String := "\x7b\"ShortKey\":\"/api/new\",\"Resource\":\"http://x\"\x7d"
def bodyDoubleSlash : String := "\x7b\"ShortKey\":\"//a\",\"Resource\":\"http://x\"\x7d"
def bodyRelative : String := "\x7b\"ShortKey\":\"/a/b\",\"Resource\":\"foo\"\x7d"
def bodyTwoObjects : String :=
  "\x7b\"ShortKey\":\"/a\",\"Resource\":\"http://x\"\x7d\x7b\"ShortKey\":\"/b\",\"Resource\":\"http://y\"\x7d"

/-- A platform for concrete inputs: the results of `encoding/json` on the six bodies
above and on the empty body; for the url and escaping functions the identity, which is
what the library computes on an absolute ASCII url such as `http://x` or on a clean
absolute path, and for the relative url `foo` on the request path `/a/b` the resolved
`/a/foo`.  On any other body the decoder entry is a placeholder (the empty-body answer).
The mux answer is filled in by `samplePlatform`. -/
def sampleLibrary : Platform where
  decodeRedirection body :=
    if body = bodyA1 then Except.ok { ShortKey := "/a", Resource := "http://x" }
    else if body = bodyA2 then Except.ok { ShortKey := "/a", Resource := "http://y" }
    else if body = bodyApiNew then Except.ok { ShortKey := "/api/new", Resource := "http://x" }
    else if body = bodyTwoObjects then Except.ok { ShortKey := "/a", Resource := "http://x" }
    else if body = bodyRelative then Except.ok { ShortKey := "/a/b", Resource := "foo" }
    else if body = bodyDoubleSlash then Except.ok { ShortKey := "//a", Resource := "http://x" }
    else Except.error errEOF
  decodeAgain body :=
    if body = bodyTwoObjects then some (errUnknownField "ShortKey") else some errEOF
  fmtQ s := "\"" ++ s ++ "\""
  redirectURL path url := if path = "/a/b" ∧ url = "foo" then "/a/foo" else url
  hexEscapeNonASCII url := url
  htmlEscape url := url
  muxAnswer _ := ResponseWriter.fresh

/-- The platform of the concrete inputs: `sampleLibrary` with the mux answering a path
that is not in canonical form by `http.Redirect` to the cleaned path with status 301. -/
def samplePlatform : Platform :=
  { sampleLibrary with
    muxAnswer := fun r =>
      httpRedirect sampleLibrary ResponseWriter.fresh r (cleanPath r.Path)
        StatusMovedPermanently }

/-- Request headers with the one key `Content-Type`. -/
def contentTypeHeader (value : String) : HttpHeader :=
  fun k => if k = "Content-Type" then some [value] else none

/-- A creation request: `POST /api/new` with JSON content type. -/
def postNew (body : String) : Request :=
  { Method := "POST", Path := "/api/new", Header := contentTypeHeader "application/json",
    Body := body }

/-- A `GET` request without headers or body. -/
def getPath (path : String) : Request :=
  { Method := "GET", Path := path, Header := fun _ => none, Body := "" }

end UrlShortener

/-! ## Theorems -/

namespace UrlShortener

/-! ### Library facts -/

theorem httpError_status_fresh (msg : String) (code : Nat) :
    (httpError ResponseWriter.fresh msg code).status = some code := by
  simp [httpError, ResponseWriter.fresh, ResponseWriter.Write, ResponseWriter.WriteHeader]

theorem httpError_code_fresh (msg : String) (code : Nat) :
    (httpError ResponseWriter.fresh msg code).code = code := by
  simp [ResponseWriter.code, httpError_status_fresh]

theorem httpError_body_fresh (msg : String) (code : Nat) :
    (httpError ResponseWriter.fresh msg code).body = msg ++ "\n" := by
  simp [httpError, ResponseWriter.fresh, ResponseWriter.Write, ResponseWriter.WriteHeader]

theorem write_fresh (bytes : String) :
    ResponseWriter.fresh.Write bytes =
      { header := fun _ => none, status := some 200, body := bytes } := by
  simp [ResponseWriter.fresh, ResponseWriter.Write, ResponseWriter.WriteHeader]

theorem httpRedirect_status_fresh (P : Platform) (r : Request) (url : String) (code : Nat) :
    (httpRedirect P ResponseWriter.fresh r url code).status = some code := by
  unfold httpRedirect
  by_cases hm : r.Method = "GET" <;>
    simp [hm, ResponseWriter.fresh, ResponseWriter.Write, ResponseWriter.WriteHeader]

theorem httpRedirect_location_fresh (P : Platform) (r : Request) (url : String) (code : Nat) :
    (httpRedirect P ResponseWriter.fresh r url code).header.Get "Location"
      = P.hexEscapeNonASCII (P.redirectURL r.Path url) := by
  unfold httpRedirect
  by_cases hm : r.Method = "GET" <;> by_cases hh : r.Method = "HEAD" <;>
    simp [hm, hh, ResponseWriter.fresh, ResponseWriter.Write, ResponseWriter.WriteHeader,
      HttpHeader.Get, HttpHeader.Set]

/-! ### Handler facts shared by several results -/

theorem createRedirection_of_json (P : Platform) (w : ResponseWriter) (r : Request) (g : State)
    (h : r.Header.Get "Content-Type" = "application/json") :
    createRedirection P w r g = decodeAndStore P w r g := by
  simp [createRedirection, h]

theorem createRedirection_of_not_json (P : Platform) (w : ResponseWriter) (r : Request)
    (g : State) (h : r.Header.Get "Content-Type" ≠ "application/json") :
    createRedirection P w r g
      = (httpError w "Content-Type must be set to application/json" StatusBadRequest, g) := by
  unfold createRedirection
  by_cases h0 : r.Header.Get "Content-Type" = "" <;> simp [h0, h]

theorem route_apiNew (request : Request) (h : request.Path = "/api/new") :
    route request = Route.apiNew := by
  have hc : cleanPath "/api/new" = "/api/new" := by decide
  simp [route, h, hc]

theorem route_root (request : Request) (h : request.Path ≠ "/api/new")
    (hc : cleanPath request.Path = request.Path) : route request = Route.root := by
  simp [route, h, hc]

theorem serve_root (P : Platform) (request : Request) (g : State)
    (h : route request = Route.root) :
    serve P request g = rootHandler P ResponseWriter.fresh request g := by
  simp [serve, h]

theorem serve_apiNew (P : Platform) (request : Request) (g : State)
    (h : request.Path = "/api/new") :
    serve P request g = apiNewHandler P ResponseWriter.fresh request g := by
  simp [serve, route_apiNew request h]

theorem serve_mux (P : Platform) (request : Request) (g : State)
    (h : route request = Route.mux) :
    serve P request g = (P.muxAnswer request, g) := by
  simp [serve, h]

theorem rootHandler_state (P : Platform) (w : ResponseWriter) (request : Request) (g : State) :
    (rootHandler P w request g).2 = g := by
  unfold rootHandler
  cases h : g.pathsToUrls request.Path <;> simp [h]

theorem assignments_append (t u : List Event) :
    assignments (t ++ u) = assignments t ++ assignments u := by
  induction t with
  | nil => rfl
  | cons e t ih => cases e <;> simp [assignments, ih]

theorem decodeCalls_append (t u : List Event) :
    decodeCalls (t ++ u) = decodeCalls t + decodeCalls u := by
  induction t with
  | nil => simp [decodeCalls]
  | cons e t ih => cases e <;> simp [decodeCalls, ih]; omega

/-- The two ways `decodeAndStore` ends: an `http.Error` of status 400 or 500 with the map
and its assignment history untouched, or no write to the response at all and the decoded
pair assigned, which needs a first decode that succeeded and a second that returned
`io.EOF` itself. -/
theorem decodeAndStore_cases (P : Platform) (w : ResponseWriter) (r : Request) (g : State) :
    (∃ msg code, (code = 400 ∨ code = 500)
        ∧ (decodeAndStore P w r g).1 = httpError w msg code
        ∧ (decodeAndStore P w r g).2.pathsToUrls = g.pathsToUrls
        ∧ assignments (decodeAndStore P w r g).2.trace = assignments g.trace
        ∧ decodeCalls g.trace < decodeCalls (decodeAndStore P w r g).2.trace)
    ∨ (∃ red err, P.decodeRedirection r.Body = Except.ok red
        ∧ P.decodeAgain r.Body = some err ∧ err.eqEOF = true
        ∧ decodeAndStore P w r g
          = (w, { pathsToUrls := g.pathsToUrls.assign red.ShortKey red.Resource,
                  trace := g.trace ++ [Event.decode, Event.decode,
                    Event.assign red.ShortKey red.Resource] })) := by
  unfold decodeAndStore
  cases h1 : P.decodeRedirection r.Body with
  | error err =>
    left
    cases hs : err.asSyntaxError with
    | some offset =>
      exact ⟨_, 400, Or.inl rfl, by simp [hs, StatusBadRequest]; rfl,
        by simp [hs, State.record], by simp [hs, State.record, assignments_append, assignments],
        by simp [hs, State.record, decodeCalls_append, decodeCalls]⟩
    | none =>
      by_cases hu : err.isUnexpectedEOF = true
      · exact ⟨_, 400, Or.inl rfl, by simp [hs, hu, StatusBadRequest]; rfl,
          by simp [hs, hu, State.record],
          by simp [hs, hu, State.record, assignments_append, assignments],
          by simp [hs, hu, State.record, decodeCalls_append, decodeCalls]⟩
      · cases ht : err.asUnmarshalTypeError with
        | some fo =>
          exact ⟨_, 400, Or.inl rfl, by simp [hs, hu, ht, StatusBadRequest]; rfl,
            by simp [hs, hu, ht, State.record],
            by simp [hs, hu, ht, State.record, assignments_append, assignments],
            by simp [hs, hu, ht, State.record, decodeCalls_append, decodeCalls]⟩
        | none =>
          by_cases hp : ("json: unknown field ".isPrefixOf err.text) = true
          · exact ⟨_, 400, Or.inl rfl, by simp [hs, hu, ht, hp, StatusBadRequest]; rfl,
              by simp [hs, hu, ht, hp, State.record],
              by simp [hs, hu, ht, hp, State.record, assignments_append, assignments],
              by simp [hs, hu, ht, hp, State.record, decodeCalls_append, decodeCalls]⟩
          · by_cases he : err.isEOF = true
            · exact ⟨_, 400, Or.inl rfl, by simp [hs, hu, ht, hp, he, StatusBadRequest]; rfl,
                by simp [hs, hu, ht, hp, he, State.record],
                by simp [hs, hu, ht, hp, he, State.record, assignments_append, assignments],
                by simp [hs, hu, ht, hp, he, State.record, decodeCalls_append, decodeCalls]⟩
            · exact ⟨_, 500, Or.inr rfl,
                by simp [hs, hu, ht, hp, he, StatusInternalServerError]; rfl,
                by simp [hs, hu, ht, hp, he, State.record],
                by simp [hs, hu, ht, hp, he, State.record, assignments_append, assignments],
                by simp [hs, hu, ht, hp, he, State.record, decodeCalls_append, decodeCalls]⟩
  | ok red =>
    cases h2 : P.decodeAgain r.Body with
    | none =>
      left
      exact ⟨_, 400, Or.inl rfl, by simp [StatusBadRequest]; rfl, by simp [State.record],
        by simp [State.record, assignments_append, assignments],
        by simp [State.record, decodeCalls_append, decodeCalls]⟩
    | some err =>
      by_cases he : err.eqEOF = true
      · right
        exact ⟨red, err, rfl, rfl, he, by simp [he, State.record]⟩
      · left
        exact ⟨_, 400, Or.inl rfl, by simp [he, StatusBadRequest]; rfl, by simp [he, State.record],
          by simp [he, State.record, assignments_append, assignments],
          by simp [he, State.record, decodeCalls_append, decodeCalls]⟩

/-- The same two endings for `createRedirection`. -/
theorem createRedirection_cases (P : Platform) (w : ResponseWriter) (r : Request) (g : State) :
    (∃ msg code, (code = 400 ∨ code = 500)
        ∧ (createRedirection P w r g).1 = httpError w msg code
        ∧ (createRedirection P w r g).2.pathsToUrls = g.pathsToUrls
        ∧ assignments (createRedirection P w r g).2.trace = assignments g.trace)
    ∨ (∃ red err, r.Header.Get "Content-Type" = "application/json"
        ∧ P.decodeRedirection r.Body = Except.ok red
        ∧ P.decodeAgain r.Body = some err ∧ err.eqEOF = true
        ∧ createRedirection P w r g
          = (w, { pathsToUrls := g.pathsToUrls.assign red.ShortKey red.Resource,
                  trace := g.trace ++ [Event.decode, Event.decode,
                    Event.assign red.ShortKey red.Resource] })) := by
  by_cases hct : r.Header.Get "Content-Type" = "application/json"
  · rw [createRedirection_of_json P w r g hct]
    rcases decodeAndStore_cases P w r g with ⟨msg, code, hc, h1, h2, h3, _⟩ | ⟨red, err, h⟩
    · exact Or.inl ⟨msg, code, hc, h1, h2, h3⟩
    · exact Or.inr ⟨red, err, hct, h⟩
  · rw [createRedirection_of_not_json P w r g hct]
    exact Or.inl ⟨_, 400, Or.inl rfl, rfl, rfl, rfl⟩

theorem serve_create (P : Platform) (request : Request) (g : State)
    (hp : request.Path = "/api/new") (hm : request.Method = "POST") :
    serve P request g = createRedirection P ResponseWriter.fresh request g := by
  rw [serve_apiNew P request g hp]
  simp [apiNewHandler, hm]

/-- A creation is successful exactly when the request is well formed: JSON content type,
a body that decodes to the pair, and `io.EOF` itself from the second decode. The map then
holds the pair and nothing was written to the response. -/
theorem successfulCreation_iff (P : Platform) (request : Request) (g : State)
    (k res : String) :
    SuccessfulCreation P request g k res ↔
      (request.Path = "/api/new" ∧ request.Method = "POST"
        ∧ request.Header.Get "Content-Type" = "application/json"
        ∧ P.decodeRedirection request.Body = Except.ok { ShortKey := k, Resource := res }
        ∧ ∃ err, P.decodeAgain request.Body = some err ∧ err.eqEOF = true) := by
  unfold SuccessfulCreation
  constructor
  · rintro ⟨hp, hm, hd, hc⟩
    rw [serve_create P request g hp hm] at hc
    rcases createRedirection_cases P ResponseWriter.fresh request g with
      ⟨msg, code, hcode, h1, _, _⟩ | ⟨red, err, hct, _, h2, h3, _⟩
    · rw [h1, httpError_code_fresh] at hc
      rcases hcode with h | h <;> rw [h] at hc <;> exact absurd hc (by decide)
    · exact ⟨hp, hm, hct, hd, err, h2, h3⟩
  · rintro ⟨hp, hm, hct, hd, err, h2, h3⟩
    refine ⟨hp, hm, hd, ?_⟩
    rw [serve_create P request g hp hm]
    rcases createRedirection_cases P ResponseWriter.fresh request g with
      ⟨msg, code, hcode, h1, _, _⟩ | ⟨red, err1, _, _, _, _, hs⟩
    · exfalso
      rw [createRedirection_of_json P _ request g hct] at h1
      unfold decodeAndStore at h1
      simp only [hd, h2, h3] at h1
      have hb := congrArg ResponseWriter.status h1
      rw [httpError_status_fresh] at hb
      simp [ResponseWriter.fresh] at hb
    · rw [hs]; rfl

theorem successfulCreation_state (P : Platform) (request : Request) (g : State)
    (k res : String) (h : SuccessfulCreation P request g k res) :
    serve P request g
      = (ResponseWriter.fresh,
          { pathsToUrls := g.pathsToUrls.assign k res,
            trace := g.trace ++ [Event.decode, Event.decode, Event.assign k res] }) := by
  obtain ⟨hp, hm, hct, hd, err, h2, h3⟩ := (successfulCreation_iff P request g k res).mp h
  rw [serve_create P request g hp hm, createRedirection_of_json P _ request g hct]
  unfold decodeAndStore
  simp [hd, h2, h3, State.record]

/-- One request either leaves the map as it was or is a successful creation that assigns
its pair. -/
theorem serve_map (P : Platform) (request : Request) (g : State) :
    (serve P request g).2.pathsToUrls = g.pathsToUrls
      ∨ ∃ k res, SuccessfulCreation P request g k res
          ∧ (serve P request g).2.pathsToUrls = g.pathsToUrls.assign k res := by
  by_cases hp : request.Path = "/api/new"
  · by_cases hm : request.Method = "POST"
    · rcases createRedirection_cases P ResponseWriter.fresh request g with
        ⟨_, _, _, _, h2, _⟩ | ⟨red, err, hct, hd, h2, h3, hs⟩
      · left; rw [serve_create P request g hp hm]; exact h2
      · right
        refine ⟨red.ShortKey, red.Resource, ?_, ?_⟩
        · exact (successfulCreation_iff P request g _ _).mpr ⟨hp, hm, hct, hd, err, h2, h3⟩
        · rw [serve_create P request g hp hm, hs]
    · left
      rw [serve_apiNew P request g hp]
      simp [apiNewHandler, hm]
  · left
    cases hr : route request with
    | mux => rw [serve_mux P request g hr]
    | apiNew =>
      exfalso
      unfold route at hr
      split at hr
      · cases hr
      · simp [hp] at hr
    | root => rw [serve_root P request g hr, rootHandler_state]

theorem rootHandler_found (P : Platform) (w : ResponseWriter) (request : Request) (g : State)
    (res : String) (h : g.pathsToUrls request.Path = some res) :
    rootHandler P w request g = (httpRedirect P w request res StatusSeeOther, g) := by
  simp [rootHandler, h]

/-! ### Results -/

/-- C3: whenever the `Content-Type` header of a creation request is absent (read as the
empty string) or differs from `application/json`, `createRedirection` answers with
`http.Error` of the fixed message and status 400, and the state is returned as it was:
no `Decode` call is recorded, so the body is not read, and the outcome is the same for
every body and every decoder. -/
theorem createRedirection_content_type (P : Platform) (w : ResponseWriter) (r : Request)
    (g : State) (h : r.Header.Get "Content-Type" ≠ "application/json") :
    createRedirection P w r g
        = (httpError w "Content-Type must be set to application/json" 400, g)
      ∧ (createRedirection P ResponseWriter.fresh r g).1.code = 400
      ∧ (createRedirection P ResponseWriter.fresh r g).1.body
          = "Content-Type must be set to application/json\n"
      ∧ decodeCalls (createRedirection P w r g).2.trace = decodeCalls g.trace
      ∧ ∀ (Q : Platform) (body : String),
          createRedirection Q w { r with Body := body } g = createRedirection P w r g := by
  have e := createRedirection_of_not_json P w r g h
  refine ⟨e, ?_, ?_, ?_, ?_⟩
  · rw [createRedirection_of_not_json P _ r g h]
    exact httpError_code_fresh _ _
  · rw [createRedirection_of_not_json P _ r g h]
    exact httpError_body_fresh _ _
  · rw [e]
  · intro Q body
    rw [e]
    exact createRedirection_of_not_json Q w { r with Body := body } g h

theorem createRedirection_content_type_witness :
    (getPath "/api/new").Header.Get "Content-Type" ≠ "application/json"
      ∧ (createRedirection samplePlatform ResponseWriter.fresh (getPath "/api/new")
          State.init).1.code = 400 :=
  ⟨by decide,
    (createRedirection_content_type samplePlatform ResponseWriter.fresh (getPath "/api/new")
      State.init (by decide)).2.1⟩

/-- C4: with the JSON content type, when the first `Decode` succeeds and the second
returns anything but `io.EOF` (a nil error included), `createRedirection` answers with
`http.Error` of "Request body must only contain a single JSON object" and status 400; the
map is the one before the request and the two `Decode` calls are the only effects. -/
theorem createRedirection_trailing_content (P : Platform) (w : ResponseWriter) (r : Request)
    (g : State) (red : Redirection)
    (hct : r.Header.Get "Content-Type" = "application/json")
    (h1 : P.decodeRedirection r.Body = Except.ok red)
    (h2 : ∀ err, P.decodeAgain r.Body = some err → err.eqEOF = false) :
    (createRedirection P w r g).1
        = httpError w "Request body must only contain a single JSON object" 400
      ∧ (createRedirection P ResponseWriter.fresh r g).1.code = 400
      ∧ (createRedirection P ResponseWriter.fresh r g).1.body
          = "Request body must only contain a single JSON object\n"
      ∧ (createRedirection P w r g).2.pathsToUrls = g.pathsToUrls
      ∧ (createRedirection P w r g).2.trace = g.trace ++ [Event.decode, Event.decode] := by
  have key : ∀ w0, createRedirection P w0 r g
      = (httpError w0 "Request body must only contain a single JSON object" 400,
          (g.record Event.decode).record Event.decode) := by
    intro w0
    rw [createRedirection_of_json P w0 r g hct]
    unfold decodeAndStore
    simp only [h1]
    cases hd : P.decodeAgain r.Body with
    | none => simp [StatusBadRequest]
    | some err => simp [h2 err hd, StatusBadRequest]
  refine ⟨by rw [key], ?_, ?_, by rw [key]; rfl, by rw [key]; simp [State.record]⟩
  · rw [key]; exact httpError_code_fresh _ _
  · rw [key]; exact httpError_body_fresh _ _

theorem createRedirection_trailing_content_witness :
    (createRedirection samplePlatform ResponseWriter.fresh (postNew bodyTwoObjects)
        State.init).1.code = 400
      ∧ (createRedirection samplePlatform ResponseWriter.fresh (postNew bodyTwoObjects)
        State.init).2.pathsToUrls = State.init.pathsToUrls :=
  have h := createRedirection_trailing_content samplePlatform ResponseWriter.fresh
    (postNew bodyTwoObjects) State.init { ShortKey := "/a", Resource := "http://x" }
    (by decide) (by rfl) (by
      intro err he
      have : err = errUnknownField "ShortKey" := by
        have h0 : samplePlatform.decodeAgain (postNew bodyTwoObjects).Body
            = some (errUnknownField "ShortKey") := by rfl
        rw [h0] at he
        exact (Option.some.inj he).symm
      rw [this]; rfl)
  ⟨h.2.1, h.2.2.2.1⟩

/-- C6: a request to `/api/new` whose method is not `POST` is answered by the routing
closure alone with `http.Error` of "Not allowed" and status 400, whatever its headers and
body; the state is returned as it was, and the outcome differs from every outcome of
`createRedirection` on that request, so that function is not run. -/
theorem apiNew_other_method (P : Platform) (request : Request) (g : State)
    (hp : request.Path = "/api/new") (hm : request.Method ≠ "POST") :
    serve P request g = (httpError ResponseWriter.fresh "Not allowed" 400, g)
      ∧ (serve P request g).1.code = 400
      ∧ (serve P request g).1.body = "Not allowed\n"
      ∧ (∀ Q : Platform,
          serve P request g ≠ createRedirection Q ResponseWriter.fresh request g)
      ∧ ∀ (Q : Platform) (header : HttpHeader) (body : String),
          serve Q { request with Header := header, Body := body } g = serve P request g := by
  have e : ∀ (Q : Platform) (rq : Request), rq.Path = "/api/new" → rq.Method ≠ "POST" →
      serve Q rq g = (httpError ResponseWriter.fresh "Not allowed" 400, g) := by
    intro Q rq h1 h2
    rw [serve_apiNew Q rq g h1]
    simp [apiNewHandler, h2, StatusBadRequest]
  refine ⟨e P request hp hm, ?_, ?_, ?_, ?_⟩
  · rw [e P request hp hm]; exact httpError_code_fresh _ _
  · rw [e P request hp hm]; exact httpError_body_fresh _ _
  · intro Q heq
    rw [e P request hp hm] at heq
    by_cases hct : request.Header.Get "Content-Type" = "application/json"
    · rw [createRedirection_of_json Q _ request g hct] at heq
      rcases decodeAndStore_cases Q ResponseWriter.fresh request g with
        ⟨_, _, _, _, _, _, hd⟩ | ⟨red, err, _, _, _, hs⟩
      · rw [← heq] at hd
        exact Nat.lt_irrefl _ hd
      · rw [hs] at heq
        have hb := congrArg (fun o => o.1.body) heq
        simp only [httpError_body_fresh] at hb
        revert hb
        decide
    · rw [createRedirection_of_not_json Q _ request g hct] at heq
      have hb := congrArg (fun o => o.1.body) heq
      simp only [httpError_body_fresh] at hb
      revert hb
      decide
  · intro Q header body
    rw [e P request hp hm]
    exact e Q _ hp hm

theorem apiNew_other_method_witness :
    (getPath "/api/new").Path = "/api/new" ∧ (getPath "/api/new").Method ≠ "POST"
      ∧ (serve samplePlatform (getPath "/api/new") State.init).1.code = 400 :=
  ⟨rfl, by decide,
    (apiNew_other_method samplePlatform (getPath "/api/new") State.init rfl (by decide)).2.1⟩

/-- C8: the catch-all handler returns the state it was given, map and effect history
alike, on every writer, request and state; on a fresh writer the status is 303 when the
path is a key of the map and 200 when it is not. -/
theorem rootHandler_no_side_effect (P : Platform) (w : ResponseWriter) (request : Request)
    (g : State) :
    (rootHandler P w request g).2 = g
      ∧ (rootHandler P w request g).2.pathsToUrls = g.pathsToUrls
      ∧ (rootHandler P ResponseWriter.fresh request g).1.code
          = if (g.pathsToUrls request.Path).isSome then 303 else 200 := by
  refine ⟨rootHandler_state P w request g, by rw [rootHandler_state], ?_⟩
  unfold rootHandler
  cases h : g.pathsToUrls request.Path with
  | none => simp [h, write_fresh, ResponseWriter.code]
  | some res =>
    simp [h, ResponseWriter.code, httpRedirect_status_fresh, StatusSeeOther]

/-- C5: for a request that the mux routes to the catch-all handler and whose path is not
a key of the map, the handler's response has status 200 and body exactly "Not found", the
state is unchanged, and serving the same request `n` times in a row gives that response
`n` times. -/
theorem not_found_response (P : Platform) (request : Request) (g : State)
    (hroute : route request = Route.root) (hmiss : g.pathsToUrls request.Path = none) :
    rootHandler P ResponseWriter.fresh request g = (ResponseWriter.fresh.Write "Not found", g)
      ∧ serve P request g = (ResponseWriter.fresh.Write "Not found", g)
      ∧ (serve P request g).1.status = some 200
      ∧ (serve P request g).1.code = 200
      ∧ (serve P request g).1.body = "Not found"
      ∧ ∀ n : Nat, serveRepeated P request n g
          = (List.replicate n (ResponseWriter.fresh.Write "Not found"), g) := by
  have e0 : rootHandler P ResponseWriter.fresh request g
      = (ResponseWriter.fresh.Write "Not found", g) := by
    simp [rootHandler, hmiss]
  have e : serve P request g = (ResponseWriter.fresh.Write "Not found", g) := by
    rw [serve_root P request g hroute, e0]
  refine ⟨e0, e, by rw [e]; rfl, by rw [e]; rfl, by rw [e]; rfl, ?_⟩
  intro n
  induction n with
  | zero => rfl
  | succ n ih => simp [serveRepeated, e, ih, List.replicate_succ]

theorem not_found_response_witness :
    route (getPath "/nope") = Route.root
      ∧ State.init.pathsToUrls (getPath "/nope").Path = none
      ∧ (serve samplePlatform (getPath "/nope") State.init).1.body = "Not found" :=
  ⟨by decide, rfl,
    (not_found_response samplePlatform (getPath "/nope") State.init (by decide)
      rfl).2.2.2.2.1⟩

/-- C7: when the first `Decode` returns an error, the answer is fixed by the first test
of the `switch` that the error passes, in the order syntax error (400, message with the
offset), unexpected end of input (400, generic message), type mismatch (400, message with
the quoted field and the offset), text starting with "json: unknown field " (400, message
with the rest of the text), end of input (400, "Request body must not be empty"); the
status is 500 exactly when the error passes none of the five tests, and then the body is
the status text of 500 and the error text is logged. The status is 400 or 500 and the map
is unchanged in every case. -/
theorem decode_error_response (P : Platform) (w : ResponseWriter) (r : Request) (g : State)
    (err : GoError)
    (hct : r.Header.Get "Content-Type" = "application/json")
    (herr : P.decodeRedirection r.Body = Except.error err) :
    (∀ offset, err.asSyntaxError = some offset →
        (createRedirection P w r g).1 = httpError w
          ("Request body contains badly-formed JSON (at position " ++ toString offset ++ ")")
          400)
      ∧ (err.asSyntaxError = none → err.isUnexpectedEOF = true →
        (createRedirection P w r g).1
          = httpError w "Request body contains badly-formed JSON" 400)
      ∧ (err.asSyntaxError = none → err.isUnexpectedEOF = false →
        ∀ field offset, err.asUnmarshalTypeError = some (field, offset) →
        (createRedirection P w r g).1 = httpError w
          ("Request body contains an invalid value for the " ++ P.fmtQ field
            ++ " field (at position " ++ toString offset ++ ")") 400)
      ∧ (err.asSyntaxError = none → err.isUnexpectedEOF = false →
        err.asUnmarshalTypeError = none →
        "json: unknown field ".isPrefixOf err.text = true →
        (createRedirection P w r g).1 = httpError w
          ("Request body contains unknown field "
            ++ TrimPrefix err.text "json: unknown field ") 400)
      ∧ (err.asSyntaxError = none → err.isUnexpectedEOF = false →
        err.asUnmarshalTypeError = none →
        "json: unknown field ".isPrefixOf err.text = false → err.isEOF = true →
        (createRedirection P w r g).1 = httpError w "Request body must not be empty" 400)
      ∧ ((createRedirection P ResponseWriter.fresh r g).1.code = 500 ↔
        (err.asSyntaxError = none ∧ err.isUnexpectedEOF = false
          ∧ err.asUnmarshalTypeError = none
          ∧ "json: unknown field ".isPrefixOf err.text = false ∧ err.isEOF = false))
      ∧ ((createRedirection P ResponseWriter.fresh r g).1.code = 500 →
        (createRedirection P ResponseWriter.fresh r g).1.body = "Internal Server Error\n"
          ∧ (createRedirection P ResponseWriter.fresh r g).2.trace
            = g.trace ++ [Event.decode, Event.logPrint err.text])
      ∧ ((createRedirection P ResponseWriter.fresh r g).1.code = 400
        ∨ (createRedirection P ResponseWriter.fresh r g).1.code = 500)
      ∧ (createRedirection P w r g).2.pathsToUrls = g.pathsToUrls := by
  rw [createRedirection_of_json P w r g hct,
    createRedirection_of_json P ResponseWriter.fresh r g hct]
  unfold decodeAndStore
  simp only [herr]
  cases hs : err.asSyntaxError with
  | some offset =>
    simp [httpError_code_fresh, httpError_body_fresh, StatusBadRequest, State.record]
  | none =>
    cases hu : err.isUnexpectedEOF with
    | true => simp [httpError_code_fresh, httpError_body_fresh, StatusBadRequest, State.record]
    | false =>
      cases ht : err.asUnmarshalTypeError with
      | some fo =>
        simp [httpError_code_fresh, httpError_body_fresh, StatusBadRequest, State.record]
        intro field offset hfo
        rw [hfo]
      | none =>
        cases hp : "json: unknown field ".isPrefixOf err.text with
        | true =>
          simp [httpError_code_fresh, httpError_body_fresh, StatusBadRequest, State.record]
        | false =>
          cases he : err.isEOF with
          | true =>
            simp [httpError_code_fresh, httpError_body_fresh, StatusBadRequest, State.record]
          | false =>
            simp [httpError_code_fresh, httpError_body_fresh, StatusBadRequest,
              StatusInternalServerError, StatusText, State.record]

theorem decode_error_response_witness :
    (postNew "").Header.Get "Content-Type" = "application/json"
      ∧ samplePlatform.decodeRedirection (postNew "").Body = Except.error errEOF
      ∧ (createRedirection samplePlatform ResponseWriter.fresh (postNew "") State.init).1
        = httpError ResponseWriter.fresh "Request body must not be empty" 400 :=
  ⟨by decide, rfl,
    (decode_error_response samplePlatform ResponseWriter.fresh (postNew "") State.init errEOF
      (by decide) rfl).2.2.2.2.1 rfl rfl rfl (by decide) rfl⟩

/-- C10, as stated, fails when the pair posted is the pair already stored: the second
creation of `/a -> http://x` writes no error response (status 200, nothing written), and
the map after it is the map before it, so the store is not modified although no error
response is written. -/
theorem createRedirection_atomic_counterexample :
    (createRedirection samplePlatform ResponseWriter.fresh (postNew bodyA1)
        (serve samplePlatform (postNew bodyA1) State.init).2).1.code = 200
      ∧ (createRedirection samplePlatform ResponseWriter.fresh (postNew bodyA1)
        (serve samplePlatform (postNew bodyA1) State.init).2).2.pathsToUrls
        = (serve samplePlatform (postNew bodyA1) State.init).2.pathsToUrls := by
  refine ⟨by decide, ?_⟩
  have e : serve samplePlatform (postNew bodyA1) State.init
      = (ResponseWriter.fresh,
          { pathsToUrls := State.init.pathsToUrls.assign "/a" "http://x",
            trace := State.init.trace
              ++ [Event.decode, Event.decode, Event.assign "/a" "http://x"] }) :=
    successfulCreation_state samplePlatform (postNew bodyA1) State.init "/a" "http://x"
      ⟨rfl, rfl, rfl, by decide⟩
  have e2 := successfulCreation_state samplePlatform (postNew bodyA1)
    (serve samplePlatform (postNew bodyA1) State.init).2 "/a" "http://x"
    ⟨rfl, rfl, rfl, by decide⟩
  rw [serve_create samplePlatform (postNew bodyA1) _ rfl rfl] at e2
  rw [e2, e]
  funext k
  by_cases hk : k = "/a" <;> simp [UrlMap.assign, hk]

/-- C10, amended: `createRedirection` performs its map assignment exactly when it writes
no error response, and the contents of the map change only then. The status is 200, 400
or 500. When it is 400 or 500 the map and its assignment history are those before the
request. When it is 200 nothing was written to the response, the body decoded to a pair,
the one assignment of the request is `pathsToUrls[ShortKey] = Resource` for that pair,
the map afterwards holds `Resource` at `ShortKey` and its old value at every other key,
and it differs from the map before exactly when `ShortKey` did not already map to
`Resource`. -/
theorem createRedirection_atomic (P : Platform) (r : Request) (g : State) :
    ((createRedirection P ResponseWriter.fresh r g).1.code = 200
        ∨ (createRedirection P ResponseWriter.fresh r g).1.code = 400
        ∨ (createRedirection P ResponseWriter.fresh r g).1.code = 500)
      ∧ (assignments (createRedirection P ResponseWriter.fresh r g).2.trace
            ≠ assignments g.trace
          ↔ (createRedirection P ResponseWriter.fresh r g).1.code = 200)
      ∧ ((createRedirection P ResponseWriter.fresh r g).2.pathsToUrls ≠ g.pathsToUrls →
          (createRedirection P ResponseWriter.fresh r g).1.code = 200)
      ∧ ((createRedirection P ResponseWriter.fresh r g).1.code ≠ 200 →
          (createRedirection P ResponseWriter.fresh r g).2.pathsToUrls = g.pathsToUrls
            ∧ assignments (createRedirection P ResponseWriter.fresh r g).2.trace
              = assignments g.trace)
      ∧ ((createRedirection P ResponseWriter.fresh r g).1.code = 200 →
          (createRedirection P ResponseWriter.fresh r g).1 = ResponseWriter.fresh
            ∧ ∃ red, P.decodeRedirection r.Body = Except.ok red
              ∧ assignments (createRedirection P ResponseWriter.fresh r g).2.trace
                = assignments g.trace ++ [(red.ShortKey, red.Resource)]
              ∧ (createRedirection P ResponseWriter.fresh r g).2.pathsToUrls red.ShortKey
                = some red.Resource
              ∧ (∀ k, k ≠ red.ShortKey →
                  (createRedirection P ResponseWriter.fresh r g).2.pathsToUrls k
                    = g.pathsToUrls k)
              ∧ ((createRedirection P ResponseWriter.fresh r g).2.pathsToUrls
                    ≠ g.pathsToUrls
                  ↔ g.pathsToUrls red.ShortKey ≠ some red.Resource)) := by
  rcases createRedirection_cases P ResponseWriter.fresh r g with
    ⟨msg, code, hcode, h1, h2, h3⟩ | ⟨red, err, _, hd, _, _, hs⟩
  · have hc : (createRedirection P ResponseWriter.fresh r g).1.code = code := by
      rw [h1, httpError_code_fresh]
    have hne : code ≠ 200 := by rcases hcode with h | h <;> rw [h] <;> decide
    refine ⟨?_, ?_, fun h => absurd h2 h, fun _ => ⟨h2, h3⟩, ?_⟩
    · rw [hc]; rcases hcode with h | h
      · exact Or.inr (Or.inl h)
      · exact Or.inr (Or.inr h)
    · rw [hc, h3]; exact ⟨fun h => absurd rfl h, fun h => absurd h hne⟩
    · intro h; rw [hc] at h; exact absurd h hne
  · have ha : assignments (g.trace ++ [Event.decode, Event.decode,
        Event.assign red.ShortKey red.Resource])
          = assignments g.trace ++ [(red.ShortKey, red.Resource)] := by
      simp [assignments_append, assignments]
    have hself : (g.pathsToUrls.assign red.ShortKey red.Resource) red.ShortKey
        = some red.Resource := by simp [UrlMap.assign]
    have hother : ∀ k, k ≠ red.ShortKey →
        (g.pathsToUrls.assign red.ShortKey red.Resource) k = g.pathsToUrls k := by
      intro k hk; simp [UrlMap.assign, hk]
    have hchange : g.pathsToUrls.assign red.ShortKey red.Resource ≠ g.pathsToUrls
        ↔ g.pathsToUrls red.ShortKey ≠ some red.Resource := by
      constructor
      · intro hne hold
        apply hne
        funext k
        by_cases hk : k = red.ShortKey
        · rw [hk, hself, hold]
        · exact hother k hk
      · intro hne heq
        apply hne
        rw [← heq]; exact hself
    rw [hs]
    refine ⟨Or.inl rfl, ⟨fun _ => rfl, fun _ => ?_⟩, fun _ => rfl, fun h => absurd rfl h,
      fun _ => ⟨rfl, red, hd, ha, hself, hother, hchange⟩⟩
    show assignments (g.trace ++ _) ≠ _
    rw [ha]
    intro h
    have hl := congrArg List.length h
    simp at hl

/-- C9: across any one request, whatever its method and route, a key `k` that maps to
`res` stays a key and still maps to `res` unless the request is a successful creation with
`ShortKey = k`; a key that was absent is present afterwards only if the request is a
successful creation with `ShortKey = k`; and a successful creation with `ShortKey = k`
leaves `k` mapped to its `Resource`. -/
theorem entries_persist (P : Platform) (request : Request) (g : State) (k : String) :
    (∀ res, g.pathsToUrls k = some res →
        ((serve P request g).2.pathsToUrls k).isSome = true
          ∧ ((serve P request g).2.pathsToUrls k = some res
            ∨ ∃ res1, SuccessfulCreation P request g k res1))
      ∧ (g.pathsToUrls k = none → ((serve P request g).2.pathsToUrls k).isSome = true →
          ∃ res1, SuccessfulCreation P request g k res1)
      ∧ (∀ res1, SuccessfulCreation P request g k res1 →
          (serve P request g).2.pathsToUrls k = some res1) := by
  refine ⟨?_, ?_, ?_⟩
  · intro res hres
    rcases serve_map P request g with h | ⟨k1, res1, hs, h⟩
    · rw [h, hres]; exact ⟨rfl, Or.inl rfl⟩
    · rw [h]
      by_cases hk : k = k1
      · subst hk
        exact ⟨by simp [UrlMap.assign], Or.inr ⟨res1, hs⟩⟩
      · simp [UrlMap.assign, hk, hres]
  · intro hnone hsome
    rcases serve_map P request g with h | ⟨k1, res1, hs, h⟩
    · rw [h, hnone] at hsome; exact absurd hsome (by decide)
    · by_cases hk : k = k1
      · subst hk; exact ⟨res1, hs⟩
      · rw [h] at hsome
        simp [UrlMap.assign, hk, hnone] at hsome
  · intro res1 hs
    rw [successfulCreation_state P request g k res1 hs]
    simp [UrlMap.assign]

theorem entries_persist_witness :
    State.init.pathsToUrls "/a" = none
      ∧ SuccessfulCreation samplePlatform (postNew bodyA1) State.init "/a" "http://x"
      ∧ (serve samplePlatform (postNew bodyA1) State.init).2.pathsToUrls "/a"
        = some "http://x" :=
  ⟨rfl, ⟨rfl, rfl, rfl, by decide⟩,
    (entries_persist samplePlatform (postNew bodyA1) State.init "/a").2.2 "http://x"
      ⟨rfl, rfl, rfl, by decide⟩⟩

/-- C2: after two successful creation requests with the same `ShortKey = k`, first with
`Resource = r1` and then with `Resource = r2`, neither response carries an error (nothing
was written to either, the status is 200), the map holds `r2` and nothing else for `k`, and
the catch-all handler looking up the path `k` redirects to `r2`. -/
theorem last_write_wins (P : Platform) (g : State) (first second : Request)
    (k r1 r2 : String)
    (h1 : SuccessfulCreation P first g k r1)
    (h2 : SuccessfulCreation P second (serve P first g).2 k r2) :
    (serve P first g).1 = ResponseWriter.fresh
      ∧ (serve P second (serve P first g).2).1 = ResponseWriter.fresh
      ∧ (serve P first g).1.code = 200
      ∧ (serve P second (serve P first g).2).1.code = 200
      ∧ (serve P second (serve P first g).2).2.pathsToUrls k = some r2
      ∧ (∀ res, (serve P second (serve P first g).2).2.pathsToUrls k = some res → res = r2)
      ∧ ∀ (w : ResponseWriter) (lookup : Request), lookup.Path = k →
          rootHandler P w lookup (serve P second (serve P first g).2).2
            = (httpRedirect P w lookup r2 303, (serve P second (serve P first g).2).2) := by
  have e1 := successfulCreation_state P first g k r1 h1
  have e2 := successfulCreation_state P second (serve P first g).2 k r2 h2
  have hk : (serve P second (serve P first g).2).2.pathsToUrls k = some r2 := by
    rw [e2]; simp [UrlMap.assign]
  refine ⟨by rw [e1], by rw [e2], by rw [e1]; rfl, by rw [e2]; rfl, hk, ?_, ?_⟩
  · intro res hres
    rw [hk] at hres
    exact (Option.some.inj hres).symm
  · intro w lookup hl
    exact rootHandler_found P w lookup _ r2 (by rw [hl]; exact hk)

theorem last_write_wins_witness :
    SuccessfulCreation samplePlatform (postNew bodyA1) State.init "/a" "http://x"
      ∧ SuccessfulCreation samplePlatform (postNew bodyA2)
          (serve samplePlatform (postNew bodyA1) State.init).2 "/a" "http://y"
      ∧ (serve samplePlatform (postNew bodyA2)
          (serve samplePlatform (postNew bodyA1) State.init).2).2.pathsToUrls "/a"
        = some "http://y" :=
  ⟨⟨rfl, rfl, rfl, by decide⟩, ⟨rfl, rfl, rfl, by decide⟩,
    (last_write_wins samplePlatform State.init (postNew bodyA1) (postNew bodyA2)
      "/a" "http://x" "http://y" ⟨rfl, rfl, rfl, by decide⟩
      ⟨rfl, rfl, rfl, by decide⟩).2.2.2.2.1⟩

/-- C1, as stated, fails at the key `/api/new`: after the successful creation of
`/api/new -> http://x`, a `GET` of the path `/api/new` is routed to the creation handler and
answered with status 400 and no `Location`, not with a 303 redirect to `http://x`. -/
theorem redirect_after_creation_counterexample :
    SuccessfulCreation samplePlatform (postNew bodyApiNew) State.init "/api/new" "http://x"
      ∧ (getPath "/api/new").Path = "/api/new"
      ∧ (serve samplePlatform (getPath "/api/new")
          (serve samplePlatform (postNew bodyApiNew) State.init).2).1.code = 400
      ∧ (serve samplePlatform (getPath "/api/new")
          (serve samplePlatform (postNew bodyApiNew) State.init).2).1.header.Get "Location" = ""
      ∧ ¬ ((serve samplePlatform (getPath "/api/new")
            (serve samplePlatform (postNew bodyApiNew) State.init).2).1.code = 303
          ∧ (serve samplePlatform (getPath "/api/new")
            (serve samplePlatform (postNew bodyApiNew) State.init).2).1.header.Get "Location"
              = "http://x") :=
  ⟨⟨rfl, rfl, rfl, by decide⟩, rfl, by decide, by decide, by decide⟩

/-- Why the `Location` of a redirect is stated through `http.Redirect`: with the relative
resource `foo` stored under `/a/b`, the library resolves the target against the request
path, and the header is `/a/foo`. -/
theorem redirect_relative_target :
    SuccessfulCreation samplePlatform (postNew bodyRelative) State.init "/a/b" "foo"
      ∧ (serve samplePlatform (getPath "/a/b")
          (serve samplePlatform (postNew bodyRelative) State.init).2).1.code = 303
      ∧ (serve samplePlatform (getPath "/a/b")
          (serve samplePlatform (postNew bodyRelative) State.init).2).1.header.Get "Location"
        = "/a/foo" :=
  ⟨⟨rfl, rfl, rfl, by decide⟩, by decide, by decide⟩

/-- Why the key of a redirect has to be a canonical path: with `//a -> http://x` stored, a
`GET` of the path `//a` is answered by the mux itself, which redirects to the cleaned path
`/a` with status 301; the catch-all handler is not called. -/
theorem redirect_noncanonical_key :
    SuccessfulCreation samplePlatform (postNew bodyDoubleSlash) State.init "//a" "http://x"
      ∧ route (getPath "//a") = Route.mux
      ∧ (serve samplePlatform (getPath "//a")
          (serve samplePlatform (postNew bodyDoubleSlash) State.init).2).1.code = 301
      ∧ (serve samplePlatform (getPath "//a")
          (serve samplePlatform (postNew bodyDoubleSlash) State.init).2).1.header.Get "Location"
        = "/a" :=
  ⟨⟨rfl, rfl, rfl, by decide⟩, by decide, by decide, by decide⟩

/-- C1, amended: for a short key `k` that is a canonical path (`cleanPath k = k`) other
than `/api/new` and any resource `res`, a successful creation request for `k` and `res`
followed by a request whose path is `k` is answered by `http.Redirect` to `res` with status
303; the `Location` header is what `http.Redirect` makes of `res` on the request path `k`,
which is `res` itself whenever the library leaves `res` unchanged. The lookup leaves the
state as the creation left it. -/
theorem redirect_after_creation (P : Platform) (g : State) (create lookup : Request)
    (k res : String)
    (hc : SuccessfulCreation P create g k res) (hk : k ≠ "/api/new")
    (hcanon : cleanPath k = k) (hl : lookup.Path = k) :
    route lookup = Route.root
      ∧ serve P lookup (serve P create g).2
        = (httpRedirect P ResponseWriter.fresh lookup res 303, (serve P create g).2)
      ∧ (serve P lookup (serve P create g).2).1.code = 303
      ∧ (serve P lookup (serve P create g).2).1.header.Get "Location"
          = P.hexEscapeNonASCII (P.redirectURL k res)
      ∧ (P.hexEscapeNonASCII (P.redirectURL k res) = res →
          (serve P lookup (serve P create g).2).1.header.Get "Location" = res) := by
  have hroute : route lookup = Route.root :=
    route_root lookup (by rw [hl]; exact hk) (by rw [hl]; exact hcanon)
  have hmap : (serve P create g).2.pathsToUrls lookup.Path = some res := by
    rw [successfulCreation_state P create g k res hc, hl]
    simp [UrlMap.assign]
  have e : serve P lookup (serve P create g).2
      = (httpRedirect P ResponseWriter.fresh lookup res 303, (serve P create g).2) := by
    rw [serve_root P lookup _ hroute]
    exact rootHandler_found P _ lookup _ res hmap
  have hloc : (serve P lookup (serve P create g).2).1.header.Get "Location"
      = P.hexEscapeNonASCII (P.redirectURL k res) := by
    rw [e, ← hl]; exact httpRedirect_location_fresh P lookup res 303
  refine ⟨hroute, e, ?_, hloc, fun h => by rw [hloc, h]⟩
  rw [e]
  simp [ResponseWriter.code, httpRedirect_status_fresh]

theorem redirect_after_creation_witness :
    SuccessfulCreation samplePlatform (postNew bodyA1) State.init "/a" "http://x"
      ∧ cleanPath "/a" = "/a"
      ∧ (serve samplePlatform (getPath "/a")
          (serve samplePlatform (postNew bodyA1) State.init).2).1.code = 303
      ∧ (serve samplePlatform (getPath "/a")
          (serve samplePlatform (postNew bodyA1) State.init).2).1.header.Get "Location"
        = "http://x" :=
  have h := redirect_after_creation samplePlatform State.init (postNew bodyA1) (getPath "/a")
    "/a" "http://x" ⟨rfl, rfl, rfl, by decide⟩ (by decide) (by decide) rfl
  ⟨⟨rfl, rfl, rfl, by decide⟩, by decide, h.2.2.1, h.2.2.2.2 rfl⟩

end UrlShortener
